import Mathlib

/-!
Verification of the TechMatch OCR+LLM batch document-processing pipeline.

Shallow embedding of the Python sources:
  * `app/api.py`            (`process_batch` orchestration)
  * `app/services/ocr.py`   (`OCRService`)
  * `app/services/nlp.py`   (`NLPService`)
  * `app/utils/text.py`     (`TextUtils`)

Numbers that are Python floats in the source are modelled as rationals
(`ℚ`); byte strings as `List Nat`; external effectful collaborators
(PyMuPDF, Tesseract, scikit-learn, the clock, uuid generation) as
explicit environment records supplying the values those calls return, or
`Except`-valued results where the call can raise.  Python exceptions are
modelled with `Except String`.
-/

namespace TechMatch

/-! ## Python's stable sort, descending by key

`list.sort(key=k, reverse=True)` in Python is a stable sort: elements
with equal keys keep their relative order.  We model it as an insertion
sort that inserts an element (coming earlier in the input) in front of
the first element whose key is `≤` its own key, which yields exactly the
stable descending order. -/

/-- Insert `a` in front of the first element of `l` whose key is `≤ key a`. -/
def ordInsertDesc {α : Type} {β : Type} [LinearOrder β] (key : α → β) (a : α) :
    List α → List α
  | [] => [a]
  | b :: l => if key b ≤ key a then a :: b :: l else b :: ordInsertDesc key a l

/-- Stable descending sort by `key`; model of Python
`list.sort(key=key, reverse=True)`. -/
def sortDescBy {α : Type} {β : Type} [LinearOrder β] (key : α → β) :
    List α → List α
  | [] => []
  | a :: l => ordInsertDesc key a (sortDescBy key l)

theorem mem_ordInsertDesc {α β : Type} [LinearOrder β] (key : α → β) (a x : α) :
    ∀ l : List α, x ∈ ordInsertDesc key a l ↔ x = a ∨ x ∈ l := by
  intro l
  induction l with
  | nil => simp [ordInsertDesc]
  | cons b l ih =>
    by_cases h : key b ≤ key a
    · simp [ordInsertDesc, h]
    · simp only [ordInsertDesc, if_neg h, List.mem_cons, ih]
      tauto

theorem ordInsertDesc_perm {α β : Type} [LinearOrder β] (key : α → β) (a : α) :
    ∀ l : List α, List.Perm (ordInsertDesc key a l) (a :: l) := by
  intro l
  induction l with
  | nil => simp [ordInsertDesc]
  | cons b l ih =>
    by_cases h : key b ≤ key a
    · simp [ordInsertDesc, h]
    · rw [ordInsertDesc, if_neg h]
      exact (ih.cons b).trans (List.Perm.swap a b l)

theorem sortDescBy_perm {α β : Type} [LinearOrder β] (key : α → β) :
    ∀ l : List α, List.Perm (sortDescBy key l) l := by
  intro l
  induction l with
  | nil => simp [sortDescBy]
  | cons a l ih =>
    exact (ordInsertDesc_perm key a _).trans (ih.cons a)

theorem ordInsertDesc_pairwise {α β : Type} [LinearOrder β] (key : α → β) (a : α)
    {l : List α} (hl : l.Pairwise (fun x y => key y ≤ key x)) :
    (ordInsertDesc key a l).Pairwise (fun x y => key y ≤ key x) := by
  induction l with
  | nil => simp [ordInsertDesc]
  | cons b l ih =>
    rcases List.pairwise_cons.1 hl with ⟨hb, hl'⟩
    by_cases h : key b ≤ key a
    · rw [ordInsertDesc, if_pos h]
      refine List.pairwise_cons.2 ⟨?_, hl⟩
      intro x hx
      rcases List.mem_cons.1 hx with rfl | hx
      · exact h
      · exact le_trans (hb x hx) h
    · rw [ordInsertDesc, if_neg h]
      refine List.pairwise_cons.2 ⟨?_, ih hl'⟩
      intro x hx
      rcases (mem_ordInsertDesc key a x l).1 hx with rfl | hx
      · exact le_of_lt (lt_of_not_le h)
      · exact hb x hx

/-- The result of `sortDescBy` is sorted by `key`, descending. -/
theorem sortDescBy_pairwise {α β : Type} [LinearOrder β] (key : α → β) :
    ∀ l : List α, (sortDescBy key l).Pairwise (fun x y => key y ≤ key x) := by
  intro l
  induction l with
  | nil => simp [sortDescBy]
  | cons a l ih => exact ordInsertDesc_pairwise key a ih

theorem ordInsertDesc_filter_eq {α β : Type} [LinearOrder β] (key : α → β)
    (a : α) (c : β) :
    ∀ l : List α,
      (ordInsertDesc key a l).filter (fun x => decide (key x = c)) =
        if key a = c then a :: l.filter (fun x => decide (key x = c))
        else l.filter (fun x => decide (key x = c)) := by
  intro l
  induction l with
  | nil =>
    by_cases h : key a = c <;> simp [ordInsertDesc, List.filter, h]
  | cons b l ih =>
    by_cases hba : key b ≤ key a
    · rw [ordInsertDesc, if_pos hba]
      by_cases ha : key a = c
      · simp [List.filter, ha]
      · simp [List.filter, ha]
    · rw [ordInsertDesc, if_neg hba]
      have hlt : key a < key b := lt_of_not_le hba
      by_cases hb : key b = c
      · have ha : ¬ key a = c := by
          intro h; rw [h, ← hb] at hlt; exact lt_irrefl _ hlt
        simp [List.filter, hb, ha, ih]
      · by_cases ha : key a = c <;>
          simp [List.filter, hb, ha, ih]

/-- Stability of `sortDescBy`: the subsequence of elements whose key is any
fixed value `c` is exactly the same (same elements, same order) as in the
input. -/
theorem sortDescBy_filter_eq {α β : Type} [LinearOrder β] (key : α → β) (c : β) :
    ∀ l : List α,
      (sortDescBy key l).filter (fun x => decide (key x = c)) =
        l.filter (fun x => decide (key x = c)) := by
  intro l
  induction l with
  | nil => simp [sortDescBy]
  | cons a l ih =>
    by_cases ha : key a = c
    · simp [sortDescBy, ordInsertDesc_filter_eq, ha, List.filter, ih]
    · simp [sortDescBy, ordInsertDesc_filter_eq, ha, List.filter, ih]

/-! ## First-occurrence deduplication

`collections.Counter` (and `dict`) iterate keys in first-insertion
order; `list(set(xs))` iterates in an unspecified order.  `firstDedup`
keeps the first occurrence of each element, which is the insertion order
of a `Counter` built by a left-to-right scan; we also use it as one
admissible iteration order for `list(set(xs))` (the claims we prove
about the latter do not depend on the order). -/

def firstDedupAux : Nat → List String → List String
  | 0, _ => []
  | _, [] => []
  | Nat.succ fuel, a :: l =>
    a :: firstDedupAux fuel (l.filter (fun x => decide (x ≠ a)))

def firstDedup (l : List String) : List String := firstDedupAux l.length l

theorem mem_firstDedupAux : ∀ (fuel : Nat) (l : List String),
    l.length ≤ fuel → ∀ x : String, x ∈ firstDedupAux fuel l ↔ x ∈ l := by
  intro fuel
  induction fuel with
  | zero =>
    intro l hl x
    rw [Nat.le_zero, List.length_eq_zero] at hl
    subst hl
    simp [firstDedupAux]
  | succ fuel ih =>
    intro l hl x
    match l with
    | [] => simp [firstDedupAux]
    | a :: l =>
      rw [firstDedupAux]
      have hlen : (l.filter (fun x => decide (x ≠ a))).length ≤ fuel := by
        have := List.length_filter_le (fun x => decide (x ≠ a)) l
        simp only [List.length_cons, Nat.succ_le_succ_iff] at hl
        omega
      by_cases hxa : x = a
      · simp [hxa]
      · simp only [List.mem_cons, ih _ hlen, List.mem_filter, decide_eq_true_eq]
        constructor
        · rintro (rfl | ⟨hx, _⟩)
          · exact .inl rfl
          · exact .inr hx
        · rintro (rfl | hx)
          · exact .inl rfl
          · exact .inr ⟨hx, hxa⟩

theorem mem_firstDedup (l : List String) (x : String) :
    x ∈ firstDedup l ↔ x ∈ l :=
  mem_firstDedupAux l.length l le_rfl x

theorem firstDedupAux_nodup : ∀ (fuel : Nat) (l : List String),
    l.length ≤ fuel → (firstDedupAux fuel l).Nodup := by
  intro fuel
  induction fuel with
  | zero => intro l _; simp [firstDedupAux]
  | succ fuel ih =>
    intro l hl
    match l with
    | [] => simp [firstDedupAux]
    | a :: l =>
      rw [firstDedupAux]
      have hlen : (l.filter (fun x => decide (x ≠ a))).length ≤ fuel := by
        have := List.length_filter_le (fun x => decide (x ≠ a)) l
        simp only [List.length_cons, Nat.succ_le_succ_iff] at hl
        omega
      refine List.nodup_cons.2 ⟨?_, ih _ hlen⟩
      intro ha
      have := (mem_firstDedupAux fuel _ hlen a).1 ha
      simp at this

theorem firstDedup_nodup (l : List String) : (firstDedup l).Nodup :=
  firstDedupAux_nodup l.length l le_rfl

/-! ## Python string primitives -/

/-- Python `str` whitespace (ASCII part): space, tab, newline, carriage
return, vertical tab, form feed. -/
def isPySpace (c : Char) : Bool :=
  c = ' ' || c = '\t' || c = '\n' || c = '\r' ||
    c = Char.ofNat 11 || c = Char.ofNat 12

/-- Python `str.strip()` (no arguments): remove leading and trailing
whitespace. -/
def pyStrip (s : String) : String :=
  String.mk (((s.toList.dropWhile isPySpace).reverse.dropWhile isPySpace).reverse)

def pySplitWSAux : Nat → List Char → List String
  | 0, _ => []
  | _, [] => []
  | Nat.succ fuel, c :: cs =>
    if isPySpace c then pySplitWSAux fuel cs
    else
      String.mk (c :: cs.takeWhile (fun d => !isPySpace d)) ::
        pySplitWSAux fuel (cs.dropWhile (fun d => !isPySpace d))

/-- Python `str.split()` (no arguments): split on runs of whitespace,
discarding empty pieces. -/
def pySplitWS (s : String) : List String :=
  pySplitWSAux s.toList.length s.toList

/-- Python `str.lower()` restricted to ASCII and Latin-1 letters (the
only characters relevant to this code base). -/
def pyCharLower (c : Char) : Char :=
  let n := c.toNat
  if ('A'.toNat ≤ n && n ≤ 'Z'.toNat) || (0xC0 ≤ n && n ≤ 0xDE && n ≠ 0xD7) then
    Char.ofNat (n + 32)
  else c

/-- Python `str.lower()`. -/
def pyLower (s : String) : String :=
  String.mk (s.toList.map pyCharLower)

/-- Word character in the sense of Python `re`'s `\w` (Unicode mode),
restricted to ASCII and Latin-1: letters, digits and underscore. -/
def isWordChar (c : Char) : Bool :=
  c.isAlphanum || c = '_' ||
    (0xC0 ≤ c.toNat && c.toNat ≤ 0xFF && c.toNat ≠ 0xD7 && c.toNat ≠ 0xF7) ||
    c.toNat = 0xAA || c.toNat = 0xB5 || c.toNat = 0xBA

/-! ## A small backtracking regular-expression engine

Models the fragment of Python `re` used by the source: character
classes, concatenation, alternation, greedy counted repetition and the
word boundary `\b`.  `REmatch` returns all anchored matches at the
current position in backtracking priority order (leftmost alternative
first, longer repetition first), exactly the order in which Python's
engine tries them, so the head of the list is the match Python reports.
None of the source's patterns has a capturing group, so `re.findall`
returns whole matches. -/

inductive RE : Type where
  | eps : RE
  | cls : (Char → Bool) → RE
  | seq : RE → RE → RE
  | alt : RE → RE → RE
  | rep : RE → Nat → Option Nat → RE
  | wordB : RE

/-- One anchored match attempt: `(matched characters, new previous
character, remaining input)`, candidates in priority order. -/
def REmatch : Nat → RE → Option Char → List Char →
    List (List Char × Option Char × List Char)
  | 0, _, _, _ => []
  | Nat.succ fuel, re, prev, input =>
    match re with
    | .eps => [([], prev, input)]
    | .cls p =>
      match input with
      | [] => []
      | c :: rest => if p c then [([c], some c, rest)] else []
    | .seq a b =>
      (REmatch fuel a prev input).flatMap (fun m1 =>
        (REmatch fuel b m1.2.1 m1.2.2).map (fun m2 =>
          (m1.1 ++ m2.1, m2.2.1, m2.2.2)))
    | .alt a b => REmatch fuel a prev input ++ REmatch fuel b prev input
    | .wordB =>
      let lw := match prev with | none => false | some c => isWordChar c
      let rw := match input with | [] => false | c :: _ => isWordChar c
      if lw ≠ rw then [([], prev, input)] else []
    | .rep r lo hi =>
      match lo, hi with
      | 0, some 0 => [([], prev, input)]
      | 0, _ =>
        ((REmatch fuel r prev input).flatMap (fun m1 =>
          if m1.1.isEmpty then []
          else
            (REmatch fuel (.rep r 0 (hi.map (· - 1))) m1.2.1 m1.2.2).map
              (fun m2 => (m1.1 ++ m2.1, m2.2.1, m2.2.2)))) ++ [([], prev, input)]
      | Nat.succ _, some 0 => []
      | Nat.succ lo', _ =>
        (REmatch fuel r prev input).flatMap (fun m1 =>
          (REmatch fuel (.rep r lo' (hi.map (· - 1))) m1.2.1 m1.2.2).map
            (fun m2 => (m1.1 ++ m2.1, m2.2.1, m2.2.2)))

/-- Structural size of a pattern, used to budget matching fuel. -/
def reSize : RE → Nat
  | .eps => 1
  | .cls _ => 1
  | .seq a b => reSize a + reSize b + 1
  | .alt a b => reSize a + reSize b + 1
  | .rep r _ hi => (reSize r + 2) * (match hi with | some n => n + 2 | none => 2)
  | .wordB => 1

/-- Fuel that is always sufficient for the patterns of this code base
(every repetition body consumes at least one character). -/
def reFuel (re : RE) (input : List Char) : Nat :=
  (input.length + 2) * (reSize re + 2) + 2

/-- Model of Python `re.findall(pattern, text)` for patterns without
capturing groups: scan left to right, take the leftmost match, continue
after it (advancing one character past an empty match). -/
def reFindallAux (re : RE) : Nat → Option Char → List Char → List String
  | 0, _, _ => []
  | Nat.succ fuel, prev, input =>
    match REmatch (reFuel re input) re prev input with
    | m :: _ =>
      if m.1.isEmpty then
        match input with
        | [] => [""]
        | c :: rest => "" :: reFindallAux re fuel (some c) rest
      else String.mk m.1 :: reFindallAux re fuel m.2.1 m.2.2
    | [] =>
      match input with
      | [] => []
      | c :: rest => reFindallAux re fuel (some c) rest

def reFindall (re : RE) (text : String) : List String :=
  reFindallAux re (text.toList.length + 1) none (text.toList)

/-- `r{n}` -/
def REexactly (r : RE) (n : Nat) : RE := .rep r n (some n)

/-- `r?` -/
def REopt (r : RE) : RE := .rep r 0 (some 1)

/-- `r+` -/
def REplus (r : RE) : RE := .rep r 1 none

/-- `abc…` as a sequence of single-character classes. -/
def REstr (s : String) : RE :=
  (s.toList.map (fun c => RE.cls (fun d => d = c))).foldr RE.seq RE.eps

/-- Case-insensitive literal string. -/
def REstrCI (s : String) : RE :=
  (s.toList.map (fun c => RE.cls (fun d => pyCharLower d = pyCharLower c))).foldr
    RE.seq RE.eps

def REseqs (l : List RE) : RE := l.foldr RE.seq RE.eps

def REdigit : RE := .cls Char.isDigit

def REspace : RE := .cls isPySpace

/-! ## Base64 (Python `base64.b64encode` / `b64decode`) -/

def b64Alphabet : List Char :=
  ("ABCDEFGHIJKLMNOPQRSTUVWXYZabcdefghijklmnopqrstuvwxyz0123456789+/").toList

def b64Index (c : Char) : Option Nat :=
  b64Alphabet.indexOf? c

def b64Char (n : Nat) : Char := b64Alphabet.getD n 'A'

/-- Python `base64.b64encode(bs).decode("utf-8")`: 3 bytes → 4 characters,
with `=` padding. -/
def b64encode : List Nat → String
  | [] => ""
  | [x] =>
    String.mk [b64Char (x / 4), b64Char (x % 4 * 16), '=', '=']
  | [x, y] =>
    String.mk [b64Char (x / 4), b64Char (x % 4 * 16 + y / 16),
      b64Char (y % 16 * 4), '=']
  | x :: y :: z :: rest =>
    String.mk [b64Char (x / 4), b64Char (x % 4 * 16 + y / 16),
      b64Char (y % 16 * 4 + z / 64), b64Char (z % 64)] ++ b64encode rest

/-- Decode a run of filtered base64 characters, 4 at a time.  A padding
quad ends the data (as in CPython's `binascii.a2b_base64`). -/
def b64DecodeGroups : List Char → Except String (List Nat)
  | [] => .ok []
  | a :: b :: c :: d :: rest =>
    match b64Index a, b64Index b with
    | some va, some vb =>
      if c = '=' then .ok [va * 4 + vb / 16]
      else
        match b64Index c with
        | some vc =>
          if d = '=' then .ok [va * 4 + vb / 16, vb % 16 * 16 + vc / 4]
          else
            match b64Index d with
            | some vd =>
              (b64DecodeGroups rest).map
                (fun tail => (va * 4 + vb / 16) :: (vb % 16 * 16 + vc / 4) ::
                  (vc % 4 * 64 + vd) :: tail)
            | none => .error ("Invalid base64-encoded string")
        | none => .error ("Invalid base64-encoded string")
    | _, _ => .error ("Invalid base64-encoded string")
  | _ => .error ("Incorrect padding")

/-- Python `base64.b64decode(s)` (default `validate=False`): characters
outside the alphabet and `=` are discarded, then the data must form
whole quads. -/
def b64decode (s : String) : Except String (List Nat) :=
  b64DecodeGroups
    (s.toList.filter (fun c => (b64Index c).isSome || c = '='))

/-! ## UTF-8 decoding (Python `bytes.decode("utf-8")`) -/

def isCont (b : Nat) : Bool := 0x80 ≤ b && b ≤ 0xBF

/-- Decode one UTF-8 scalar from the head of the byte list.  `none` means
end of input; an `error` is a malformed sequence (strict mode). -/
def utf8Step : List Nat → Except String (Option (Char × List Nat))
  | [] => .ok none
  | b :: rest =>
    if b < 0x80 then .ok (some (Char.ofNat b, rest))
    else if 0xC2 ≤ b && b ≤ 0xDF then
      match rest with
      | c1 :: r =>
        if isCont c1 then .ok (some (Char.ofNat ((b - 0xC0) * 64 + (c1 - 0x80)), r))
        else .error ("invalid continuation byte")
      | [] => .error ("unexpected end of data")
    else if 0xE0 ≤ b && b ≤ 0xEF then
      match rest with
      | c1 :: c2 :: r =>
        let lo1 := if b = 0xE0 then 0xA0 else 0x80
        let hi1 := if b = 0xED then 0x9F else 0xBF
        if (lo1 ≤ c1 && c1 ≤ hi1) && isCont c2 then
          .ok (some (Char.ofNat ((b - 0xE0) * 4096 + (c1 - 0x80) * 64 + (c2 - 0x80)), r))
        else .error ("invalid continuation byte")
      | _ => .error ("unexpected end of data")
    else if 0xF0 ≤ b && b ≤ 0xF4 then
      match rest with
      | c1 :: c2 :: c3 :: r =>
        let lo1 := if b = 0xF0 then 0x90 else 0x80
        let hi1 := if b = 0xF4 then 0x8F else 0xBF
        if (lo1 ≤ c1 && c1 ≤ hi1) && isCont c2 && isCont c3 then
          .ok (some (Char.ofNat ((b - 0xF0) * 262144 + (c1 - 0x80) * 4096 +
            (c2 - 0x80) * 64 + (c3 - 0x80)), r))
        else .error ("invalid continuation byte")
      | _ => .error ("unexpected end of data")
    else .error ("invalid start byte")

def utf8DecodeStrictAux : Nat → List Nat → Except String (List Char)
  | 0, _ => .error ("decoder out of fuel")
  | Nat.succ fuel, bs =>
    match utf8Step bs with
    | .error e => .error e
    | .ok none => .ok []
    | .ok (some (c, rest)) =>
      (utf8DecodeStrictAux fuel rest).map (fun cs => c :: cs)

/-- Python `bs.decode("utf-8")` — strict: raises on the first malformed
sequence. -/
def utf8DecodeStrict (bs : List Nat) : Except String String :=
  (utf8DecodeStrictAux (bs.length + 1) bs).map String.mk

def utf8DecodeIgnoreAux : Nat → List Nat → List Char
  | 0, _ => []
  | Nat.succ fuel, bs =>
    match utf8Step bs with
    | .ok none => []
    | .ok (some (c, rest)) => c :: utf8DecodeIgnoreAux fuel rest
    | .error _ =>
      match bs with
      | [] => []
      | _ :: rest => utf8DecodeIgnoreAux fuel rest

/-- Python `bs.decode("utf-8", errors="ignore")`: malformed bytes are
skipped (modelled byte by byte) and decoding continues; never raises. -/
def utf8DecodeIgnore (bs : List Nat) : String :=
  String.mk (utf8DecodeIgnoreAux (bs.length + 1) bs)

/-! ## Splitting on separator runs -/

def splitRunsAux (brk : Char → Bool) : Nat → List Char → List String
  | 0, _ => []
  | _, [] => []
  | Nat.succ fuel, c :: cs =>
    if brk c then splitRunsAux brk fuel cs
    else
      String.mk (c :: cs.takeWhile (fun d => !brk d)) ::
        splitRunsAux brk fuel (cs.dropWhile (fun d => !brk d))

/-- Maximal runs of non-separator characters, in order (empty pieces do
not occur). -/
def splitRuns (brk : Char → Bool) (s : String) : List String :=
  splitRunsAux brk s.toList.length s.toList

/-! ## `app/services/nlp.py` — `NLPService` -/

/-- `NLPService._split_sentences`: `re.split(r'[.!?]+', text)` followed by
strip and dropping empties.  Since empty pieces are dropped, this equals
splitting on runs of sentence terminators. -/
def splitSentences (text : String) : List String :=
  ((splitRuns (fun c => c = '.' || c = '!' || c = '?') text).map pyStrip).filter
    (fun s => decide (s ≠ ""))

/-- `NLPService.summarize_text`.  The `except` fallback of the source is
unreachable in the embedding (none of the operations used can raise). -/
def summarize_text (text : String) : String :=
  let sentences := splitSentences text
  if sentences.length ≤ 3 then
    if 500 < text.length then text.take 500 ++ "..." else text
  else
    let summary := String.intercalate (" ")
      (sentences.take 2 ++ sentences.drop (sentences.length - 1))
    if 500 < summary.length then summary.take 500 ++ "..." else summary

/-- Stop words of `NLPService.extract_keywords` (`nlp.py`, line 101). -/
def nlpStopWords : List String :=
  ["que", "para", "com", "uma", "por", "são", "dos", "das", "como", "mais",
   "foi", "ser", "tem", "ter", "seu", "sua", "seus", "suas", "este", "esta",
   "estes", "estas", "isso", "isto", "aqui", "ali", "onde", "quando", "como",
   "porque", "mas", "também", "ainda", "apenas", "muito", "bem", "todo",
   "toda", "todos", "todas", "outro", "outra", "outros", "outras"]

/-- The character class `[a-záàâãéêíóôõúç]` of the keyword tokenizer. -/
def isKeywordTokenChar (c : Char) : Bool :=
  ('a' ≤ c && c ≤ 'z') || c ∈ ("áàâãéêíóôõúç").toList

/-- The pattern `\b[a-záàâãéêíóôõúç]{3,}\b` of `extract_keywords`. -/
def keywordTokenRE : RE :=
  REseqs [.wordB, .rep (.cls isKeywordTokenChar) 3 none, .wordB]

/-- `re.findall(r'\b[a-záàâãéêíóôõúç]{3,}\b', text.lower())`. -/
def keywordTokens (text : String) : List String :=
  reFindall keywordTokenRE (pyLower text)

/-- `collections.Counter(ws).most_common(k)`, keeping only the words:
distinct words in first-occurrence order (`Counter` insertion order),
stably sorted by count descending (`heapq.nlargest` is stable), first
`k` taken. -/
def counterMostCommon (k : Nat) (ws : List String) : List String :=
  (sortDescBy (fun w => ws.count w) (firstDedup ws)).take k

/-- `NLPService.extract_keywords` (`nlp.py`, lines 90–114).  Note the
filter keeps only words with `len(word) > 3` even though the tokenizer
already requires length ≥ 3. -/
def extract_keywords (text : String) (max_keywords : Nat := 10) : List String :=
  let words := keywordTokens text
  let filtered := words.filter
    (fun w => decide (w ∉ nlpStopWords) && decide (3 < w.length))
  counterMostCommon max_keywords filtered

/-- Python `min` on two rationals, kept as an executable `if`. -/
def pyMinQ (a b : ℚ) : ℚ := if a ≤ b then a else b

/-- Python `max` on two naturals, kept as an executable `if`. -/
def pyMaxN (a b : Nat) : Nat := if a ≤ b then b else a

theorem pyMinQ_le_right (a b : ℚ) : pyMinQ a b ≤ b := by
  unfold pyMinQ; split
  · assumption
  · exact le_rfl

theorem le_pyMinQ (a b c : ℚ) (ha : c ≤ a) (hb : c ≤ b) : c ≤ pyMinQ a b := by
  unfold pyMinQ; split
  · exact ha
  · exact hb

/-- `set(s.lower().split())` as a first-occurrence list of the distinct
words. -/
def wordSet (s : String) : List String := firstDedup (pySplitWS (pyLower s))

/-- The `except` branch of `NLPService.calculate_similarity`: for each
text, `len(common) / max(len(query_words), len(text_words), 1)`, then
`min(·, 1.0)`. -/
def similarityFallback (query : String) (texts : List String) : List ℚ :=
  let qw := wordSet query
  texts.map (fun t =>
    let tw := wordSet t
    let common := qw.filter (fun w => w ∈ tw)
    pyMinQ ((common.length : ℚ) / ((pyMaxN (pyMaxN qw.length tw.length) 1 : Nat) : ℚ)) 1)

/-- External collaborators of the NLP service: the scikit-learn TF-IDF +
cosine-similarity pipeline of `calculate_similarity`'s `try` branch,
which can raise (e.g. `sklearn` missing, empty vocabulary). -/
structure NlpEnv : Type where
  tfidfCosine : String → List String → Except String (List ℚ)

/-- `NLPService.calculate_similarity` (`nlp.py`, lines 200–240). -/
def calculate_similarity (env : NlpEnv) (query : String) (texts : List String) :
    List ℚ :=
  match env.tfidfCosine query texts with
  | .ok sims => sims
  | .error _ => similarityFallback query texts

/-- `NLPService.find_relevant_excerpts` (`nlp.py`, lines 242–282), `try`
branch (its `except` fallback is unreachable in the embedding). -/
def find_relevant_excerpts (env : NlpEnv) (query : String) (text : String)
    (max_excerpts : Nat := 3) : List String :=
  let sentences := ((splitRuns (fun c => c = '.') text).map pyStrip).filter
    (fun s => decide (s ≠ ""))
  if sentences = [] then []
  else
    let similarities := calculate_similarity env query sentences
    let sentence_scores := sentences.zip similarities
    let sorted := sortDescBy (fun p : String × ℚ => p.2) sentence_scores
    ((sorted.take max_excerpts).filter (fun p => decide ((1:ℚ)/10 < p.2))).map
      (fun p => pyStrip p.1 ++ ".")

/-! ## `app/models.py` — the data model used by the pipeline -/

inductive DocumentType : Type where
  | pdf | image | text | docx | doc
deriving DecidableEq

inductive ProcessingStatus : Type where
  | pending | processing | completed | failed | cancelled
deriving DecidableEq

/-- `models.OCRResult` (the `language` keyword passed by `ocr.py` is not
a declared field and is discarded by pydantic; `page_count` is never
set by the service and is omitted). -/
structure OCRResult : Type where
  text : String
  confidence : ℚ
  processing_time : ℚ
deriving DecidableEq

/-- `models.DocumentResult`. -/
structure DocumentResult : Type where
  document_id : String
  filename : String
  status : ProcessingStatus
  extracted_text : Option String
  summary : Option String
  similarity_score : Option ℚ
  justification : Option String
  relevant_excerpts : Option (List String)
  processing_time : ℚ
  error_message : Option String
deriving DecidableEq

/-- `models.BatchResponse` (the `timestamp` field, a wall-clock datetime,
is represented by the rational `timestamp` supplied by the environment). -/
structure BatchResponse : Type where
  request_id : String
  user_id : String
  query : Option String
  total_documents : Nat
  successful_documents : Nat
  failed_documents : Nat
  results : List DocumentResult
  total_processing_time : ℚ
  timestamp : ℚ
deriving DecidableEq

/-! ## `app/services/ocr.py` — `OCRService` -/

/-- One PyMuPDF page, abstracted: `getText` is `page.get_text()`, and
`rasterOcr lang` is the `get_pixmap → tobytes("png") → Image.open →
pytesseract.image_to_string(…, lang=lang)` chain; either can raise. -/
structure PdfPage : Type where
  getText : Except String String
  rasterOcr : String → Except String String

/-- External collaborators of the OCR service: `fitz.open` on the PDF
bytes, the `Image.open + pytesseract` chain on image bytes, and the
wall clock (elapsed processing time). -/
structure OcrEnv : Type where
  openPdf : List Nat → Except String (List PdfPage)
  imageOcr : List Nat → String → Except String String
  elapsed : ℚ

/-- The per-page body of `_extract_from_pdf`'s `for` loop: the page's
extracted text and its confidence contribution.  Raises if `get_text`
or the OCR chain raises. -/
def pdfPageStep (lang : String) (page : PdfPage) : Except String (String × ℚ) := do
  let direct ← page.getText
  if pyStrip direct ≠ "" then
    pure (direct, 19/20)
  else do
    let ocrText ← page.rasterOcr lang
    pure (ocrText, pyMinQ (4/5) (((pyStrip ocrText).length : ℚ) / 1000))

/-- The whole `for` loop of `_extract_from_pdf`: page texts in order,
total confidence, page count.  A raise on any page aborts the loop. -/
def pdfPagesLoop (lang : String) : List PdfPage → Except String (List String × ℚ × Nat)
  | [] => .ok ([], 0, 0)
  | page :: rest => do
    let (txt, conf) ← pdfPageStep lang page
    let (ts, c, n) ← pdfPagesLoop lang rest
    pure (txt :: ts, conf + c, n + 1)

/-- `OCRService._extract_from_pdf` (`ocr.py`, lines 79–126): its own
`except` turns any raise into `("", 0.0)`. -/
def extractFromPdf (env : OcrEnv) (fileData : List Nat) (lang : String) :
    String × ℚ :=
  match (do
      let pages ← env.openPdf fileData
      pdfPagesLoop lang pages : Except String (List String × ℚ × Nat)) with
  | .ok (ts, totalConf, n) =>
    let finalText := String.intercalate ("\n\n") ts
    let avg := if 0 < n then totalConf / (n : ℚ) else 0
    (finalText, pyMinQ 1 avg)
  | .error _ => ("", 0)

/-- `OCRService._extract_from_image` (`ocr.py`, lines 128–144). -/
def extractFromImage (env : OcrEnv) (fileData : List Nat) (lang : String) :
    String × ℚ :=
  match env.imageOcr fileData lang with
  | .ok text => (text, pyMinQ (9/10) (((pyStrip text).length : ℚ) / 500))
  | .error _ => ("", 0)

/-- The `try` body of `OCRService.extract_text_from_document`. -/
def ocrBody (env : OcrEnv) (content : String) (document_type : DocumentType)
    (language : String) : Except String (String × ℚ) := do
  let fileData ← b64decode content
  match document_type with
  | .pdf => pure (extractFromPdf env fileData language)
  | .image => pure (extractFromImage env fileData language)
  | _ => do
    let text ← utf8DecodeStrict fileData
    pure (text, 1)

/-- `OCRService.extract_text_from_document` (`ocr.py`, lines 23–77):
the outer `except` turns any raise into an empty-text, zero-confidence
result. -/
def extract_text_from_document (env : OcrEnv) (content : String)
    (document_type : DocumentType) (language : String) : OCRResult :=
  match ocrBody env content document_type language with
  | .ok (text, confidence) =>
    { text := text, confidence := confidence, processing_time := env.elapsed }
  | .error _ =>
    { text := "", confidence := 0, processing_time := env.elapsed }

/-! ## `app/api.py` — the batch endpoint `process_batch` -/

/-- `LANG_MAP` (`api.py`, line 31). -/
def langMap : List (String × String) :=
  [("pt", "por"), ("en", "eng"), ("es", "spa"),
   ("por", "por"), ("eng", "eng"), ("spa", "spa")]

/-- Round to the nearest integer, ties to even — the rounding used by
Python's fixed-point formatting. -/
def roundHalfEvenZ (q : ℚ) : ℤ :=
  let f := ⌊q⌋
  if q - f < 1/2 then f
  else if 1/2 < q - f then f + 1
  else if f % 2 = 0 then f else f + 1

/-- Python `f"{x:.2f}"` on the rational score value. -/
def fmt2 (q : ℚ) : String :=
  let n := roundHalfEvenZ (q * 100)
  let sign := if n < 0 then "-" else ""
  let m := n.natAbs
  sign ++ toString (m / 100) ++ "." ++
    (if m % 100 < 10 then "0" else "") ++ toString (m % 100)

/-- The justification string of `process_batch` (`api.py`, lines
329–334): strict thresholds at 0.7 and 0.4. -/
def mkJustification (s : ℚ) : String :=
  if 7/10 < s then
    "Documento altamente relevante (score: " ++ fmt2 s ++
      ") - contém informações relacionadas à query"
  else if 2/5 < s then
    "Documento moderadamente relevante (score: " ++ fmt2 s ++
      ") - possui algumas informações relacionadas"
  else
    "Documento pouco relevante (score: " ++ fmt2 s ++
      ") - poucas informações relacionadas à query"

/-- One uploaded file: filename, declared MIME type, and the result of
`await file.read()` (which can raise). -/
structure UploadDoc : Type where
  filename : String
  contentType : String
  readResult : Except String (List Nat)

/-- Environment of a batch run: the OCR and NLP collaborators, the
generated document ids (`uuid.uuid4()` per document index), and the
wall clock. -/
structure BatchEnv : Type where
  ocr : OcrEnv
  nlp : NlpEnv
  docId : Nat → String
  docElapsed : Nat → ℚ
  totalElapsed : ℚ
  now : ℚ

/-- `has_query = bool(query and query.strip())` (`api.py`, line 270). -/
def hasQueryB : Option String → Bool
  | none => false
  | some s => decide (pyStrip s ≠ "")

/-- The `try` body of `process_batch`'s per-document loop (`api.py`,
lines 283–334): returns extracted text, summary and the query-dependent
fields.  The only operation that can raise in the embedding is
`file.read()`; the OCR service catches internally and the NLP calls
never raise. -/
def processDocumentBody (env : BatchEnv) (hasQ : Bool) (query : String)
    (tessLang : String) (file : UploadDoc) :
    Except String (String × String × Option ℚ × Option String × Option (List String)) := do
  let content ← file.readResult
  let extracted_text :=
    if file.contentType = "application/pdf" then
      (extract_text_from_document env.ocr (b64encode content) .pdf tessLang).text
    else if (file.contentType).startsWith ("image/") then
      (extract_text_from_document env.ocr (b64encode content) .image tessLang).text
    else
      utf8DecodeIgnore content
  let summary := summarize_text extracted_text
  if hasQ then
    let similarities := calculate_similarity env.nlp query [extracted_text]
    let similarity_score := similarities.headD 0
    let excerpts := find_relevant_excerpts env.nlp query extracted_text
    pure (extracted_text, summary, some similarity_score,
      some (mkJustification similarity_score), some excerpts)
  else
    pure (extracted_text, summary, none, none, none)

/-- One iteration of `process_batch`'s loop: the `try` body on success
builds a COMPLETED outcome, the `except` arm a FAILED outcome.  The
boolean reports which counter (`successful_docs`/`failed_docs`) was
incremented. -/
def processDocument (env : BatchEnv) (hasQ : Bool) (query : String)
    (tessLang : String) (i : Nat) (file : UploadDoc) : DocumentResult × Bool :=
  match processDocumentBody env hasQ query tessLang file with
  | .ok (txt, summary, score, just, excerpts) =>
    ({ document_id := env.docId i, filename := file.filename,
       status := .completed, extracted_text := some txt,
       summary := some summary, similarity_score := score,
       justification := just, relevant_excerpts := excerpts,
       processing_time := env.docElapsed i, error_message := none }, true)
  | .error e =>
    ({ document_id := env.docId i, filename := file.filename,
       status := .failed, extracted_text := none, summary := none,
       similarity_score := none, justification := none,
       relevant_excerpts := none, processing_time := env.docElapsed i,
       error_message := some e }, false)

/-- The whole `for file in files:` loop: outcomes in input order plus
the two counters. -/
def batchLoop (env : BatchEnv) (hasQ : Bool) (query : String)
    (tessLang : String) : Nat → List UploadDoc →
    List DocumentResult × Nat × Nat
  | _, [] => ([], 0, 0)
  | i, file :: files =>
    let pr := processDocument env hasQ query tessLang i file
    let rest := batchLoop env hasQ query tessLang (i + 1) files
    (pr.1 :: rest.1, (if pr.2 then rest.2.1 + 1 else rest.2.1),
      (if pr.2 then rest.2.2 else rest.2.2 + 1))

/-- The sort key of `results.sort(key=lambda x: x.similarity_score or 0,
reverse=True)`: a missing score counts as 0 (and a present score of 0
is also 0). -/
def resultKey (r : DocumentResult) : ℚ := r.similarity_score.getD 0

/-- `process_batch` (`api.py`, lines 232–416).  The audit-log write is
fire-and-forget and does not influence the response; the outer `except`
(HTTP 500) is unreachable in the embedding because every fallible step
is handled per document. -/
def process_batch (env : BatchEnv) (request_id user_id : String)
    (query : Option String) (language : String) (files : List UploadDoc) :
    BatchResponse :=
  let lang_param := pyLower (if language = "" then "por" else language)
  let tess_lang := ((langMap.lookup lang_param).getD "por")
  let has_query := hasQueryB query
  let (results, successful_docs, failed_docs) :=
    batchLoop env has_query (query.getD "") tess_lang 0 files
  let sorted := if has_query then sortDescBy resultKey results else results
  { request_id := request_id, user_id := user_id,
    query := if has_query then query else none,
    total_documents := files.length,
    successful_documents := successful_docs,
    failed_documents := failed_docs,
    results := sorted,
    total_processing_time := env.totalElapsed,
    timestamp := env.now }

/-! ## `app/utils/text.py` — `TextUtils` information extraction -/

/-- `list(set(xs))`: duplicates removed; CPython's set iteration order
is unspecified, the embedding fixes first-occurrence order (the claims
proved about it do not depend on the order). -/
def pySetList (xs : List String) : List String := firstDedup xs

def isAsciiLetter (c : Char) : Bool :=
  ('A' ≤ c && c ≤ 'Z') || ('a' ≤ c && c ≤ 'z')

def isAsciiAlphaNum (c : Char) : Bool := isAsciiLetter c || c.isDigit

/-- `\b[A-Za-z0-9._%+-]+@[A-Za-z0-9.-]+\.[A-Z|a-z]{2,}\b` (note the
literal `|` inside the final class, as in the source). -/
def emailRE : RE :=
  REseqs [.wordB,
    REplus (.cls (fun c => isAsciiAlphaNum c ||
      c = '.' || c = '_' || c = '%' || c = '+' || c = '-')),
    .cls (fun c => c = '@'),
    REplus (.cls (fun c => isAsciiAlphaNum c || c = '.' || c = '-')),
    .cls (fun c => c = '.'),
    .rep (.cls (fun c => isAsciiLetter c || c = '|')) 2 none,
    .wordB]

/-- `TextUtils.extract_emails` (`text.py`, lines 48–66); the `except`
arm is unreachable in the embedding. -/
def extract_emails (text : String) : List String :=
  pySetList (reFindall emailRE text)

/-- The three phone patterns of `extract_phone_numbers`:
`\(\d{2}\)\s*\d{4,5}-?\d{4}`, `\d{2}\s*\d{4,5}-?\d{4}`,
`\+55\s*\d{2}\s*\d{4,5}-?\d{4}`. -/
def phonePatterns : List RE :=
  [REseqs [.cls (fun c => c = '('), REexactly REdigit 2, .cls (fun c => c = ')'),
     .rep REspace 0 none, .rep REdigit 4 (some 5),
     REopt (.cls (fun c => c = '-')), REexactly REdigit 4],
   REseqs [REexactly REdigit 2, .rep REspace 0 none, .rep REdigit 4 (some 5),
     REopt (.cls (fun c => c = '-')), REexactly REdigit 4],
   REseqs [.cls (fun c => c = '+'), REstr "55", .rep REspace 0 none,
     REexactly REdigit 2, .rep REspace 0 none, .rep REdigit 4 (some 5),
     REopt (.cls (fun c => c = '-')), REexactly REdigit 4]]

/-- `TextUtils.extract_phone_numbers` (`text.py`, lines 68–96): matches
of all three patterns concatenated, then `list(set(...))`. -/
def extract_phone_numbers (text : String) : List String :=
  pySetList (phonePatterns.flatMap (fun p => reFindall p text))

/-- `https?://[^\s<>"{}|\\^`\[\]]+` (the negated class is encoded by the
code points of its members). -/
def urlRE : RE :=
  REseqs [REstr "http", REopt (.cls (fun c => c = 's')), REstr "://",
    REplus (.cls (fun c =>
      !(isPySpace c || c.toNat ∈ [60, 62, 34, 123, 125, 124, 92, 94, 96, 91, 93])))]

/-- `TextUtils.extract_urls` (`text.py`, lines 127–146). -/
def extract_urls (text : String) : List String :=
  pySetList (reFindall urlRE text)

/-- The four date patterns of `extract_dates`: `\d{1,2}/\d{1,2}/\d{4}`,
`\d{1,2}-\d{1,2}-\d{4}`, `\d{4}-\d{1,2}-\d{1,2}`, and the
case-insensitive `\d{1,2}\s+de\s+\w+\s+de\s+\d{4}`. -/
def datePatterns : List RE :=
  [REseqs [.rep REdigit 1 (some 2), .cls (fun c => c = '/'),
     .rep REdigit 1 (some 2), .cls (fun c => c = '/'), REexactly REdigit 4],
   REseqs [.rep REdigit 1 (some 2), .cls (fun c => c = '-'),
     .rep REdigit 1 (some 2), .cls (fun c => c = '-'), REexactly REdigit 4],
   REseqs [REexactly REdigit 4, .cls (fun c => c = '-'),
     .rep REdigit 1 (some 2), .cls (fun c => c = '-'), .rep REdigit 1 (some 2)],
   REseqs [.rep REdigit 1 (some 2), REplus REspace, REstrCI "de",
     REplus REspace, REplus (.cls isWordChar), REplus REspace, REstrCI "de",
     REplus REspace, REexactly REdigit 4]]

/-- `TextUtils.extract_dates` (`text.py`, lines 148–177). -/
def extract_dates (text : String) : List String :=
  pySetList (datePatterns.flatMap (fun p => reFindall p text))

/-! ## Claims -/

/-- C10: for every input text, each of the information-extraction
operations for emails, phone numbers, URLs and dates returns a list
without duplicate strings (each function ends in `list(set(...))`). -/
theorem info_extraction_results_nodup (text : String) :
    (extract_emails text).Nodup ∧ (extract_phone_numbers text).Nodup ∧
    (extract_urls text).Nodup ∧ (extract_dates text).Nodup :=
  ⟨firstDedup_nodup _, firstDedup_nodup _, firstDedup_nodup _, firstDedup_nodup _⟩

/-- C9: whenever the primary TF-IDF vectorization path raises, similarity
falls back to the per-candidate word-overlap ratio
`|query words ∩ text words| / max(|query words|, |text words|, 1)`
clamped to `[0, 1]`: one score per candidate, each in `[0, 1]`. -/
theorem similarity_fallback_bounds (env : NlpEnv) (query : String)
    (texts : List String) (e : String)
    (h : env.tfidfCosine query texts = .error e) :
    calculate_similarity env query texts = similarityFallback query texts ∧
    (calculate_similarity env query texts).length = texts.length ∧
    ∀ s ∈ calculate_similarity env query texts, 0 ≤ s ∧ s ≤ 1 := by
  have hc : calculate_similarity env query texts = similarityFallback query texts := by
    unfold calculate_similarity
    rw [h]
  refine ⟨hc, ?_, ?_⟩
  · rw [hc]
    unfold similarityFallback
    exact List.length_map _ _
  · rw [hc]
    intro s hs
    unfold similarityFallback at hs
    rcases List.mem_map.1 hs with ⟨t, _, rfl⟩
    constructor
    · refine le_pyMinQ _ _ _ ?_ (by norm_num)
      apply div_nonneg
      · exact_mod_cast Nat.zero_le _
      · exact_mod_cast Nat.zero_le _
    · exact pyMinQ_le_right _ _

/-- Witness for C9 at a concrete failing vectorizer. -/
theorem similarity_fallback_bounds_witness :
    (NlpEnv.mk (fun _ _ => .error ("sklearn indisponível"))).tfidfCosine
        ("contrato") (["texto"]) = .error ("sklearn indisponível") ∧
    (calculate_similarity (NlpEnv.mk (fun _ _ => .error ("sklearn indisponível")))
        ("contrato") (["texto"]) =
      similarityFallback ("contrato") (["texto"]) ∧
    (calculate_similarity (NlpEnv.mk (fun _ _ => .error ("sklearn indisponível")))
        ("contrato") (["texto"])).length = (["texto"] : List String).length ∧
    ∀ s ∈ calculate_similarity (NlpEnv.mk (fun _ _ => .error ("sklearn indisponível")))
        ("contrato") (["texto"]), 0 ≤ s ∧ s ≤ 1) :=
  ⟨rfl, similarity_fallback_bounds _ ("contrato") (["texto"])
    ("sklearn indisponível") rfl⟩

/-- C5: `extract_text_from_document` never raises: it either returns the
`try`-body's text and confidence, or — when any internal step raises —
an empty-text result with confidence 0.0 and the elapsed time. -/
theorem extraction_never_raises (env : OcrEnv) (content : String)
    (document_type : DocumentType) (language : String) :
    (∃ r, ocrBody env content document_type language = .ok r ∧
      extract_text_from_document env content document_type language =
        { text := r.1, confidence := r.2, processing_time := env.elapsed }) ∨
    (∃ e, ocrBody env content document_type language = .error e ∧
      extract_text_from_document env content document_type language =
        { text := "", confidence := 0, processing_time := env.elapsed }) := by
  cases h : ocrBody env content document_type language with
  | ok r =>
    left
    exact ⟨r, rfl, by unfold extract_text_from_document; rw [h]⟩
  | error e =>
    right
    exact ⟨e, rfl, by unfold extract_text_from_document; rw [h]⟩

/-- A concrete OCR environment in which PyMuPDF and Tesseract raise. -/
def ocrEnv0 : OcrEnv :=
  { openPdf := fun _ => .error ("fitz failed"),
    imageOcr := fun _ _ => .error ("tesseract failed"),
    elapsed := 0 }

/-- Counterexample to C6 as stated: the TEXT-kind payload `0xFF`
(base64 `"/w=="`) is not valid UTF-8; the claim requires
replacement-decoded text and confidence exactly 1.0, but the strict
`decode('utf-8')` raises and the catch-all returns empty text with
confidence 0.0. -/
theorem text_kind_strict_decode_cex :
    b64decode ("/w==") = .ok [255] ∧
    utf8DecodeStrict [255] = .error ("invalid start byte") ∧
    (extract_text_from_document ocrEnv0 ("/w==") .text "por").text = "" ∧
    (extract_text_from_document ocrEnv0 ("/w==") .text "por").confidence = 0 ∧
    (extract_text_from_document ocrEnv0 ("/w==") .text "por").confidence ≠ 1 := by
  refine ⟨rfl, rfl, rfl, rfl, ?_⟩
  intro h
  exact absurd h (by decide)

/-- C6 amended: TEXT-kind bytes are decoded as strict UTF-8 — a valid
payload yields exactly that decoding with confidence 1.0, while an
invalid payload is caught by the catch-all and yields empty text with
confidence 0.0 (no replacement decoding). -/
theorem text_kind_strict_decode (env : OcrEnv) (content : String)
    (language : String) (bs : List Nat) (h : b64decode content = .ok bs) :
    (∀ t, utf8DecodeStrict bs = .ok t →
      extract_text_from_document env content .text language =
        { text := t, confidence := 1, processing_time := env.elapsed }) ∧
    (∀ e, utf8DecodeStrict bs = .error e →
      extract_text_from_document env content .text language =
        { text := "", confidence := 0, processing_time := env.elapsed }) := by
  constructor
  · intro t ht
    unfold extract_text_from_document ocrBody
    rw [h]
    simp only [bind, Except.bind, Functor.map, Except.map, ht]
    rfl
  · intro e he
    unfold extract_text_from_document ocrBody
    rw [h]
    simp only [bind, Except.bind, Functor.map, Except.map, he]

/-- Witness for C6 amended at the concrete invalid payload `0xFF`. -/
theorem text_kind_strict_decode_witness :
    b64decode ("/w==") = .ok [255] ∧
    ((∀ t, utf8DecodeStrict [255] = .ok t →
      extract_text_from_document ocrEnv0 ("/w==") .text "por" =
        { text := t, confidence := 1, processing_time := ocrEnv0.elapsed }) ∧
    (∀ e, utf8DecodeStrict [255] = .error e →
      extract_text_from_document ocrEnv0 ("/w==") .text "por" =
        { text := "", confidence := 0, processing_time := ocrEnv0.elapsed })) :=
  ⟨rfl, text_kind_strict_decode ocrEnv0 ("/w==") "por" [255] rfl⟩

/-- A page of `_extract_from_pdf` fails when `get_text()` raises, or the
page has no embedded text and the rasterize/OCR chain raises. -/
def pageFails (lang : String) (p : PdfPage) : Prop :=
  (∃ e, p.getText = .error e) ∨
  (∃ t, p.getText = .ok t ∧ pyStrip t = "" ∧ ∃ e, p.rasterOcr lang = .error e)

theorem pdfPageStep_error (lang : String) (p : PdfPage) (h : pageFails lang p) :
    ∃ e, pdfPageStep lang p = .error e := by
  rcases h with ⟨e, he⟩ | ⟨t, ht, hs, e, he⟩
  · exact ⟨e, by unfold pdfPageStep; rw [he]; rfl⟩
  · refine ⟨e, ?_⟩
    unfold pdfPageStep
    rw [ht]
    simp only [bind, Except.bind, hs]
    simp [he, bind, Except.bind]

theorem pdfPageStep_ok (lang : String) (p : PdfPage) (h : ¬ pageFails lang p) :
    ∃ r, pdfPageStep lang p = .ok r := by
  unfold pageFails at h
  push_neg at h
  obtain ⟨h1, h2⟩ := h
  cases ht : p.getText with
  | error e => exact absurd ht (h1 e)
  | ok t =>
    unfold pdfPageStep
    rw [ht]
    simp only [bind, Except.bind]
    by_cases hs : pyStrip t = ""
    · cases ho : p.rasterOcr lang with
      | error e => exact absurd ho (h2 t ht hs e)
      | ok u =>
        refine ⟨(u, pyMinQ (4/5) (((pyStrip u).length : ℚ) / 1000)), ?_⟩
        simp [hs, ho, bind, Except.bind]
        rfl
    · exact ⟨(t, 19/20), by simp [hs]; rfl⟩

theorem pdfPagesLoop_error (lang : String) :
    ∀ pages : List PdfPage, (∃ p ∈ pages, pageFails lang p) →
      ∃ e, pdfPagesLoop lang pages = .error e := by
  intro pages
  induction pages with
  | nil => rintro ⟨p, hp, _⟩; cases hp
  | cons q rest ih =>
    rintro ⟨p, hp, hfail⟩
    rcases List.mem_cons.1 hp with rfl | hmem
    · rcases pdfPageStep_error lang p hfail with ⟨e, he⟩
      exact ⟨e, by unfold pdfPagesLoop; rw [he]; rfl⟩
    · by_cases hq : pageFails lang q
      · rcases pdfPageStep_error lang q hq with ⟨e, he⟩
        exact ⟨e, by unfold pdfPagesLoop; rw [he]; rfl⟩
      · rcases pdfPageStep_ok lang q hq with ⟨r, hr⟩
        rcases ih ⟨p, hmem, hfail⟩ with ⟨e, he⟩
        refine ⟨e, ?_⟩
        unfold pdfPagesLoop
        rw [hr]
        simp [he, bind, Except.bind]

/-- C7 amended: a `get_text` or rasterize/OCR failure on any single page
makes the whole document's extraction return empty text with confidence
0.0 — page failures are not isolated, all other pages' text is
discarded. -/
theorem pdf_page_failure_aborts_document (env : OcrEnv) (fileData : List Nat)
    (lang : String) (pages : List PdfPage)
    (hopen : env.openPdf fileData = .ok pages)
    (hbad : ∃ p ∈ pages, pageFails lang p) :
    extractFromPdf env fileData lang = ("", 0) := by
  rcases pdfPagesLoop_error lang pages hbad with ⟨e, he⟩
  unfold extractFromPdf
  rw [hopen]
  simp [he, bind, Except.bind]

/-- A PDF page with an embedded text layer. -/
def goodPage : PdfPage :=
  { getText := .ok ("Contrato de trabalho entre as partes"),
    rasterOcr := fun _ => .ok ("") }

/-- A PDF page without embedded text whose OCR chain raises. -/
def badPage : PdfPage :=
  { getText := .ok (""), rasterOcr := fun _ => .error ("tesseract failed") }

/-- An OCR environment whose PDF opens to `[goodPage, badPage]`. -/
def pdfEnv2 : OcrEnv :=
  { openPdf := fun _ => .ok [goodPage, badPage],
    imageOcr := fun _ _ => .error ("tesseract failed"),
    elapsed := 0 }

/-- Counterexample to C7 as stated: in a two-page PDF whose first page
has a non-empty embedded text layer and whose second page's OCR raises,
the claim requires the first page's text to survive, but the whole
document's extraction returns empty text with confidence 0.0. -/
theorem pdf_page_failure_aborts_document_cex :
    goodPage.getText = .ok ("Contrato de trabalho entre as partes") ∧
    badPage.rasterOcr "por" = .error ("tesseract failed") ∧
    extractFromPdf pdfEnv2 [37] "por" = ("", 0) :=
  ⟨rfl, rfl, rfl⟩

/-- Witness for C7 amended at the concrete two-page PDF. -/
theorem pdf_page_failure_aborts_document_witness :
    pdfEnv2.openPdf [37] = .ok [goodPage, badPage] ∧
    (∃ p ∈ [goodPage, badPage], pageFails "por" p) ∧
    extractFromPdf pdfEnv2 [37] "por" = ("", 0) :=
  ⟨rfl,
   ⟨badPage, by simp, .inr ⟨"", rfl, rfl, "tesseract failed", rfl⟩⟩,
   pdf_page_failure_aborts_document pdfEnv2 [37] "por" [goodPage, badPage] rfl
     ⟨badPage, by simp, .inr ⟨"", rfl, rfl, "tesseract failed", rfl⟩⟩⟩

/-- Modelled from the claim's words (not the source): the keyword
pipeline that keeps every token of the tokenizer's minimum length 3 and
drops only stop words.  Used to exhibit where the source deviates. -/
def keywordsClaimSpec (text : String) (k : Nat) : List String :=
  counterMostCommon k
    ((keywordTokens text).filter (fun w => decide (w ∉ nlpStopWords)))

/-- Counterexample to C8 as stated: `"sol"` is a lowercase word token of
length 3 and not a stop word, so the claim's pipeline returns it, but
`extract_keywords` also filters `len(word) > 3` and returns nothing. -/
theorem extract_keywords_min_length_cex :
    extract_keywords ("sol sol sol") 10 = [] ∧
    keywordsClaimSpec ("sol sol sol") 10 = ["sol"] := by
  constructor <;> decide

/-- The tokens `extract_keywords` actually keeps: lowercase word tokens
of tokenizer minimum length 3, minus stop words and minus tokens of
length exactly 3 (`len(word) > 3`). -/
def keptKeywordTokens (text : String) : List String :=
  (keywordTokens text).filter
    (fun w => decide (w ∉ nlpStopWords) && decide (3 < w.length))

/-- C8 amended: `extract_keywords` tokenizes to lowercase word tokens of
minimum length 3, drops stop words and additionally every token of
length exactly 3 (the `len(word) > 3` filter), counts frequency, and
returns the `k` most frequent kept tokens in descending count order with
ties broken by first occurrence: the output is a prefix of length `k` of
a ranking list that is a permutation of the distinct kept tokens in
first-occurrence order, has pairwise descending counts, and preserves
the first-occurrence order inside every equal-count class. -/
theorem extract_keywords_ranking (text : String) (k : Nat) :
    ∃ ranked : List String,
      extract_keywords text k = ranked.take k ∧
      List.Perm ranked (firstDedup (keptKeywordTokens text)) ∧
      ranked.Pairwise (fun a b => (keptKeywordTokens text).count b ≤
        (keptKeywordTokens text).count a) ∧
      ∀ c : Nat, ranked.filter
          (fun w => decide ((keptKeywordTokens text).count w = c)) =
        (firstDedup (keptKeywordTokens text)).filter
          (fun w => decide ((keptKeywordTokens text).count w = c)) := by
  refine ⟨sortDescBy (fun w => (keptKeywordTokens text).count w)
    (firstDedup (keptKeywordTokens text)), rfl, ?_, ?_, ?_⟩
  · exact sortDescBy_perm _ _
  · exact sortDescBy_pairwise _ _
  · intro c
    exact sortDescBy_filter_eq _ c _

theorem processDocumentBody_fields (env : BatchEnv) (hasQ : Bool)
    (q tess : String) (file : UploadDoc) (t s : String) (sc : Option ℚ)
    (j : Option String) (ex : Option (List String))
    (h : processDocumentBody env hasQ q tess file = .ok (t, s, sc, j, ex)) :
    (hasQ = false → sc = none ∧ j = none ∧ ex = none) ∧
    (hasQ = true → ∃ v, sc = some v ∧ j = some (mkJustification v)) := by
  unfold processDocumentBody at h
  cases hr : file.readResult with
  | error e =>
    rw [hr] at h
    exact absurd h (by simp [bind, Except.bind])
  | ok content =>
    rw [hr] at h
    simp only [bind, Except.bind] at h
    cases hasQ with
    | false =>
      simp only [Bool.false_eq_true, if_false, pure, Except.pure,
        Except.ok.injEq, Prod.mk.injEq] at h
      exact ⟨fun _ => ⟨h.2.2.1.symm, h.2.2.2.1.symm, h.2.2.2.2.symm⟩,
        fun hq => absurd hq (by simp)⟩
    | true =>
      simp only [if_true, pure, Except.pure, Except.ok.injEq,
        Prod.mk.injEq] at h
      refine ⟨fun hq => absurd hq (by simp), fun _ => ?_⟩
      exact ⟨_, h.2.2.1.symm, h.2.2.2.1.symm⟩

theorem batchLoop_mem (env : BatchEnv) (hasQ : Bool) (q tess : String) :
    ∀ (files : List UploadDoc) (i : Nat) (r : DocumentResult),
      r ∈ (batchLoop env hasQ q tess i files).1 →
      (r.status = .completed ∨ r.status = .failed) ∧
      (r.status = .failed → r.similarity_score = none ∧
        r.justification = none ∧ r.relevant_excerpts = none) ∧
      (hasQ = false → r.similarity_score = none ∧
        r.justification = none ∧ r.relevant_excerpts = none) ∧
      (hasQ = true → r.status = .completed →
        ∃ v, r.similarity_score = some v ∧
          r.justification = some (mkJustification v)) := by
  intro files
  induction files with
  | nil => intro i r hr; cases hr
  | cons file files ih =>
    intro i r hr
    rw [batchLoop] at hr
    rcases List.mem_cons.1 hr with rfl | hmem
    · unfold processDocument
      cases hb : processDocumentBody env hasQ q tess file with
      | ok tup =>
        obtain ⟨t, s, sc, j, ex⟩ := tup
        have hf := processDocumentBody_fields env hasQ q tess file t s sc j ex hb
        refine ⟨.inl rfl, fun hfail => ?_, fun hq => ?_, fun hq _ => ?_⟩
        · exact nomatch hfail
        · exact hf.1 hq
        · exact hf.2 hq
      | error e =>
        refine ⟨.inr rfl, fun _ => ⟨rfl, rfl, rfl⟩, fun _ => ⟨rfl, rfl, rfl⟩,
          fun _ hc => nomatch hc⟩
    · exact ih (i + 1) r hmem

theorem batchLoop_counts (env : BatchEnv) (hasQ : Bool) (q tess : String) :
    ∀ (files : List UploadDoc) (i : Nat),
      (batchLoop env hasQ q tess i files).1.length = files.length ∧
      (batchLoop env hasQ q tess i files).2.1 +
        (batchLoop env hasQ q tess i files).2.2 = files.length := by
  intro files
  induction files with
  | nil => intro i; exact ⟨rfl, rfl⟩
  | cons file files ih =>
    intro i
    rw [batchLoop]
    obtain ⟨h1, h2⟩ := ih (i + 1)
    cases hok : (processDocument env hasQ q tess i file).2 <;>
      simp [h1, h2, hok] <;> omega

theorem batchLoop_filenames (env : BatchEnv) (hasQ : Bool) (q tess : String) :
    ∀ (files : List UploadDoc) (i : Nat),
      (batchLoop env hasQ q tess i files).1.map (fun r => r.filename) =
        files.map (fun f => f.filename) := by
  intro files
  induction files with
  | nil => intro i; rfl
  | cons file files ih =>
    intro i
    rw [batchLoop]
    have hname : (processDocument env hasQ q tess i file).1.filename =
        file.filename := by
      unfold processDocument
      cases hb : processDocumentBody env hasQ q tess file with
      | ok tup => rfl
      | error e => rfl
    simp [hname, ih (i + 1)]

theorem processDocumentBody_noquery (env : BatchEnv) (q1 q2 tess : String)
    (file : UploadDoc) :
    processDocumentBody env false q1 tess file =
      processDocumentBody env false q2 tess file := rfl

theorem batchLoop_noquery (env : BatchEnv) (q1 q2 tess : String) :
    ∀ (files : List UploadDoc) (i : Nat),
      batchLoop env false q1 tess i files = batchLoop env false q2 tess i files := by
  intro files
  induction files with
  | nil => intro i; rfl
  | cons file files ih =>
    intro i
    rw [batchLoop, batchLoop]
    have hd : processDocument env false q1 tess i file =
        processDocument env false q2 tess i file := by
      unfold processDocument
      rw [processDocumentBody_noquery env q1 q2 tess file]
    rw [hd, ih (i + 1)]

/-- The Tesseract language computed by `process_batch` from the request
language. -/
def batchTess (language : String) : String :=
  (langMap.lookup (pyLower (if language = "" then "por" else language))).getD "por"

/-- The outcome list of the per-document loop (before any sorting),
together with the two counters. -/
def batchRaw (env : BatchEnv) (query : Option String) (language : String)
    (files : List UploadDoc) : List DocumentResult × Nat × Nat :=
  batchLoop env (hasQueryB query) (query.getD "") (batchTess language) 0 files

theorem process_batch_results (env : BatchEnv) (request_id user_id : String)
    (query : Option String) (language : String) (files : List UploadDoc) :
    (process_batch env request_id user_id query language files).results =
      if hasQueryB query then
        sortDescBy resultKey (batchRaw env query language files).1
      else (batchRaw env query language files).1 := rfl

theorem process_batch_counters (env : BatchEnv) (request_id user_id : String)
    (query : Option String) (language : String) (files : List UploadDoc) :
    (process_batch env request_id user_id query language files).successful_documents =
        (batchRaw env query language files).2.1 ∧
      (process_batch env request_id user_id query language files).failed_documents =
        (batchRaw env query language files).2.2 ∧
      (process_batch env request_id user_id query language files).total_documents =
        files.length := ⟨rfl, rfl, rfl⟩

/-- C2: for every batch run, `total_documents` equals the number of
input documents, `successful + failed = total = len(results)`, and every
outcome's status is COMPLETED or FAILED — a document's exception adds a
FAILED outcome instead of dropping the document or aborting the run. -/
theorem batch_totals_invariant (env : BatchEnv) (request_id user_id : String)
    (query : Option String) (language : String) (files : List UploadDoc) :
    (process_batch env request_id user_id query language files).total_documents =
        files.length ∧
    (process_batch env request_id user_id query language files).successful_documents +
        (process_batch env request_id user_id query language files).failed_documents =
        files.length ∧
    (process_batch env request_id user_id query language files).results.length =
        files.length ∧
    List.Perm (process_batch env request_id user_id query language files).results
      (batchRaw env query language files).1 ∧
    (batchRaw env query language files).1.map (fun r => r.filename) =
      files.map (fun f => f.filename) ∧
    ∀ r ∈ (process_batch env request_id user_id query language files).results,
      r.status = .completed ∨ r.status = .failed := by
  have hcounts := batchLoop_counts env (hasQueryB query) (query.getD "")
    (batchTess language) files 0
  refine ⟨rfl, hcounts.2, ?_, ?_, ?_, ?_⟩
  · rw [process_batch_results]
    by_cases hq : hasQueryB query = true
    · rw [if_pos hq, (sortDescBy_perm resultKey _).length_eq]
      exact hcounts.1
    · rw [if_neg hq]
      exact hcounts.1
  · rw [process_batch_results]
    by_cases hq : hasQueryB query = true
    · rw [if_pos hq]
      exact sortDescBy_perm _ _
    · rw [if_neg hq]
  · exact batchLoop_filenames env (hasQueryB query) (query.getD "")
      (batchTess language) files 0
  · intro r hr
    rw [process_batch_results] at hr
    have hmem : r ∈ (batchRaw env query language files).1 := by
      by_cases hq : hasQueryB query = true
      · rw [if_pos hq] at hr
        exact ((sortDescBy_perm resultKey _).mem_iff).1 hr
      · rw [if_neg hq] at hr
        exact hr
    exact (batchLoop_mem env (hasQueryB query) (query.getD "")
      (batchTess language) files 0 r hmem).1

/-- C1: with a non-blank query the outcome list is the stable descending
sort of the per-document outcomes by similarity score (a missing score —
carried exactly by FAILED outcomes — counting as 0): the response is a
permutation of the processing-order outcomes, pairwise sorted by
descending effective score, and every equal-score class keeps its
processing (= input) order; without a query the outcome list is exactly
the processing-order outcome list, which follows the input order. -/
theorem batch_result_ordering (env : BatchEnv) (request_id user_id language : String)
    (files : List UploadDoc) (q : String) (hq : pyStrip q ≠ "") :
    ((process_batch env request_id user_id (some q) language files).results =
        sortDescBy resultKey (batchRaw env (some q) language files).1 ∧
      List.Perm (process_batch env request_id user_id (some q) language files).results
        (batchRaw env (some q) language files).1 ∧
      (process_batch env request_id user_id (some q) language files).results.Pairwise
        (fun a b => resultKey b ≤ resultKey a) ∧
      (∀ c : ℚ, (process_batch env request_id user_id (some q) language files).results.filter
            (fun r => decide (resultKey r = c)) =
          (batchRaw env (some q) language files).1.filter
            (fun r => decide (resultKey r = c))) ∧
      (∀ r ∈ (batchRaw env (some q) language files).1, r.status = .failed →
        r.similarity_score = none) ∧
      (batchRaw env (some q) language files).1.map (fun r => r.filename) =
        files.map (fun f => f.filename)) ∧
    ((process_batch env request_id user_id none language files).results =
        (batchRaw env none language files).1 ∧
      (batchRaw env none language files).1.map (fun r => r.filename) =
        files.map (fun f => f.filename)) := by
  have hqq : hasQueryB (some q) = true := decide_eq_true hq
  have hres : (process_batch env request_id user_id (some q) language files).results =
      sortDescBy resultKey (batchRaw env (some q) language files).1 := by
    rw [process_batch_results, if_pos hqq]
  refine ⟨⟨hres, ?_, ?_, ?_, ?_, ?_⟩, ?_, ?_⟩
  · rw [hres]; exact sortDescBy_perm _ _
  · rw [hres]; exact sortDescBy_pairwise _ _
  · intro c; rw [hres]; exact sortDescBy_filter_eq _ c _
  · intro r hr hfail
    exact ((batchLoop_mem env (hasQueryB (some q)) ((some q).getD "")
      (batchTess language) files 0 r hr).2.1 hfail).1
  · exact batchLoop_filenames env (hasQueryB (some q)) ((some q).getD "")
      (batchTess language) files 0
  · rw [process_batch_results]
    rfl
  · exact batchLoop_filenames env (hasQueryB none) (none.getD "")
      (batchTess language) files 0

/-- C4: in a run with a non-blank query, every COMPLETED outcome carries
a similarity score and a justification obtained by strict thresholding:
score > 0.7 gives the "altamente relevante" message, else score > 0.4
the "moderadamente relevante" message, else the "pouco relevante"
message, each embedding the score formatted to two decimals. -/
theorem completed_outcome_justification (env : BatchEnv)
    (request_id user_id language : String) (files : List UploadDoc)
    (q : String) (hq : pyStrip q ≠ "") :
    ∀ r ∈ (process_batch env request_id user_id (some q) language files).results,
      r.status = .completed →
      ∃ v, r.similarity_score = some v ∧
        r.justification = some (
          if 7/10 < v then
            "Documento altamente relevante (score: " ++ fmt2 v ++
              ") - contém informações relacionadas à query"
          else if 2/5 < v then
            "Documento moderadamente relevante (score: " ++ fmt2 v ++
              ") - possui algumas informações relacionadas"
          else
            "Documento pouco relevante (score: " ++ fmt2 v ++
              ") - poucas informações relacionadas à query") := by
  have hqq : hasQueryB (some q) = true := decide_eq_true hq
  intro r hr hc
  rw [process_batch_results, if_pos hqq] at hr
  have hmem : r ∈ (batchRaw env (some q) language files).1 :=
    ((sortDescBy_perm resultKey _).mem_iff).1 hr
  have := (batchLoop_mem env (hasQueryB (some q)) ((some q).getD "")
    (batchTess language) files 0 r hmem).2.2.2 hqq hc
  rcases this with ⟨v, hv, hj⟩
  exact ⟨v, hv, hj⟩

theorem process_batch_noquery_eq (env : BatchEnv) (request_id user_id : String)
    (language : String) (files : List UploadDoc) (s : String)
    (hs : pyStrip s = "") :
    process_batch env request_id user_id (some s) language files =
      process_batch env request_id user_id none language files := by
  have hqf : hasQueryB (some s) = false := by
    simp [hasQueryB, hs]
  unfold process_batch
  simp only [hasQueryB] at hqf
  simp only [hasQueryB, hqf, Bool.false_eq_true, if_false, Option.getD_some,
    Option.getD_none]
  rw [batchLoop_noquery env s "" ((langMap.lookup
    (pyLower (if language = "" then "por" else language))).getD "por") files 0]

/-- C3: a batch run whose query is absent or whitespace-only produces
exactly the same response as a run with an absent query: the echoed
query is absent and no outcome carries a similarity score, a
justification or relevant excerpts. -/
theorem blank_query_equals_absent (env : BatchEnv) (request_id user_id : String)
    (language : String) (files : List UploadDoc) (query : Option String)
    (h : query = none ∨ ∃ s, query = some s ∧ pyStrip s = "") :
    process_batch env request_id user_id query language files =
      process_batch env request_id user_id none language files ∧
    (process_batch env request_id user_id query language files).query = none ∧
    ∀ r ∈ (process_batch env request_id user_id query language files).results,
      r.similarity_score = none ∧ r.justification = none ∧
        r.relevant_excerpts = none := by
  have heq : process_batch env request_id user_id query language files =
      process_batch env request_id user_id none language files := by
    rcases h with rfl | ⟨s, rfl, hs⟩
    · rfl
    · exact process_batch_noquery_eq env request_id user_id language files s hs
  refine ⟨heq, ?_, ?_⟩
  · rw [heq]; rfl
  · intro r hr
    rw [heq, process_batch_results] at hr
    have hmem : r ∈ (batchRaw env none language files).1 := hr
    exact (batchLoop_mem env (hasQueryB none) (none.getD "")
      (batchTess language) files 0 r hmem).2.2.1 rfl

/-- A concrete NLP environment whose vectorizer raises. -/
def nlpEnv0 : NlpEnv := { tfidfCosine := fun _ _ => .error ("sklearn indisponível") }

/-- A concrete batch environment. -/
def batchEnv0 : BatchEnv :=
  { ocr := ocrEnv0, nlp := nlpEnv0, docId := fun i => toString i,
    docElapsed := fun _ => 0, totalElapsed := 0, now := 0 }

/-- Two concrete uploads: a plain-text file and a file whose read raises. -/
def docs0 : List UploadDoc :=
  [{ filename := "a.txt", contentType := "text/plain", readResult := .ok [111, 105] },
   { filename := "b.txt", contentType := "text/plain", readResult := .error ("read failed") }]

/-- Witness for C1 at a concrete non-blank query and two documents. -/
theorem batch_result_ordering_witness :
    pyStrip "contrato" ≠ "" ∧
    (((process_batch batchEnv0 "req1" "user1" (some "contrato") "pt" docs0).results =
        sortDescBy resultKey (batchRaw batchEnv0 (some "contrato") "pt" docs0).1 ∧
      List.Perm (process_batch batchEnv0 "req1" "user1" (some "contrato") "pt" docs0).results
        (batchRaw batchEnv0 (some "contrato") "pt" docs0).1 ∧
      (process_batch batchEnv0 "req1" "user1" (some "contrato") "pt" docs0).results.Pairwise
        (fun a b => resultKey b ≤ resultKey a) ∧
      (∀ c : ℚ, (process_batch batchEnv0 "req1" "user1" (some "contrato") "pt" docs0).results.filter
            (fun r => decide (resultKey r = c)) =
          (batchRaw batchEnv0 (some "contrato") "pt" docs0).1.filter
            (fun r => decide (resultKey r = c))) ∧
      (∀ r ∈ (batchRaw batchEnv0 (some "contrato") "pt" docs0).1, r.status = .failed →
        r.similarity_score = none) ∧
      (batchRaw batchEnv0 (some "contrato") "pt" docs0).1.map (fun r => r.filename) =
        docs0.map (fun f => f.filename)) ∧
    ((process_batch batchEnv0 "req1" "user1" none "pt" docs0).results =
        (batchRaw batchEnv0 none "pt" docs0).1 ∧
      (batchRaw batchEnv0 none "pt" docs0).1.map (fun r => r.filename) =
        docs0.map (fun f => f.filename))) :=
  ⟨by decide,
   batch_result_ordering batchEnv0 "req1" "user1" "pt" docs0 "contrato" (by decide)⟩

/-- Witness for C3 at the whitespace-only query `"   "`. -/
theorem blank_query_equals_absent_witness :
    ((some "   " : Option String) = none ∨
      ∃ s, (some "   " : Option String) = some s ∧ pyStrip s = "") ∧
    (process_batch batchEnv0 "req2" "user2" (some "   ") "pt" docs0 =
        process_batch batchEnv0 "req2" "user2" none "pt" docs0 ∧
      (process_batch batchEnv0 "req2" "user2" (some "   ") "pt" docs0).query = none ∧
      ∀ r ∈ (process_batch batchEnv0 "req2" "user2" (some "   ") "pt" docs0).results,
        r.similarity_score = none ∧ r.justification = none ∧
          r.relevant_excerpts = none) :=
  ⟨.inr ⟨"   ", rfl, by decide⟩,
   blank_query_equals_absent batchEnv0 "req2" "user2" "pt" docs0 (some "   ")
     (.inr ⟨"   ", rfl, by decide⟩)⟩

/-- Witness for C4 at a concrete non-blank query and two documents. -/
theorem completed_outcome_justification_witness :
    pyStrip "contrato" ≠ "" ∧
    ∀ r ∈ (process_batch batchEnv0 "req3" "user3" (some "contrato") "pt" docs0).results,
      r.status = .completed →
      ∃ v, r.similarity_score = some v ∧
        r.justification = some (
          if 7/10 < v then
            "Documento altamente relevante (score: " ++ fmt2 v ++
              ") - contém informações relacionadas à query"
          else if 2/5 < v then
            "Documento moderadamente relevante (score: " ++ fmt2 v ++
              ") - possui algumas informações relacionadas"
          else
            "Documento pouco relevante (score: " ++ fmt2 v ++
              ") - poucas informações relacionadas à query") :=
  ⟨by decide,
   completed_outcome_justification batchEnv0 "req3" "user3" "pt" docs0 "contrato"
     (by decide)⟩

end TechMatch
